import Mathlib

set_option maxRecDepth 8000

/-!
Verification of the OpenClaw subagent-scheduler orchestration core.

This file shallowly embeds the orchestration engine of the repository —
task decomposition into a DAG (task-decomposer.js), agent registry and
router (agent-registry.js, agent-router.js), admission / concurrency
control (redis-concurrency.js), DAG execution and single-task execution
(index.js), result aggregation (the ResultAggregator module) and the
retry / downgrade executor (the RetryExecutor module in index.js) — and
proves or refutes the specification's claims about it.

Conventions:
* JS objects become structures; a field that JS may leave `undefined` is
  an `Option`.
* JS `Map` / object-as-map state becomes a total function `String → α`
  updated pointwise, plus an explicit key list where JS key insertion
  order matters.
* JS numbers used as counters become `Int` (they may go negative) or
  `Nat` where the source can only produce naturals.
* Asynchronous JS is embedded as explicit state passing.  Concurrent
  `Promise.all` blocks whose per-element effects touch disjoint keys are
  modelled by a fold in element order (any interleaving yields the same
  final state).  External calls (agent execution endpoints) are oracles
  passed as function arguments.
* Fallible JS code (`throw`) returns `Except String α`.
-/

namespace OpenClaw

/-- A subtask node of the decomposition DAG (task-decomposer.js).  The
fields mirror the JS subtask objects built by the decomposition
templates; `requiredCapabilities` is an `Option` because router code
guards it with `|| []` / `?.`. -/
structure Subtask where
  id : String
  task : String := ""
  dependsOn : List String := []
  estimatedDuration : Nat := 60000
  requiredCapabilities : Option (List String) := some []
deriving DecidableEq, Repr

/-- Pointwise update of a total map; models mutation of one key of a JS
object or `Map`. -/
def setMap {α : Type} (f : String → α) (k : String) (v : α) : String → α :=
  fun x => if x = k then v else f x

/-- Key list of a JS object populated left to right: insertion order,
first occurrence kept (string keys of a JS object preserve insertion
order, and re-assigning an existing key does not move it). -/
def jsKeysAux (seen : List String) : List String → List String
  | [] => []
  | x :: xs => if x ∈ seen then jsKeysAux seen xs else x :: jsKeysAux (x :: seen) xs

def jsKeys (l : List String) : List String := jsKeysAux [] l

/-- The DAG object returned by `TaskDecomposer.buildDAG`
(task-decomposer.js lines 291-341).  `isValid` is the literal
`parallelGroups.length > 0` computed there. -/
structure DAG where
  subtasks : List Subtask
  graph : String → List String
  parallelGroups : List (List String)
  isValid : Bool

/-- Decrement the in-degree of each successor; a successor whose
in-degree becomes exactly zero is appended to the next queue
(task-decomposer.js lines 326-331). -/
def relaxSuccs (nexts : List String) (acc : (String → Int) × List String) :
    (String → Int) × List String :=
  nexts.foldl
    (fun acc n =>
      let d := acc.1 n - 1
      (setMap acc.1 n d, if d = 0 then acc.2 ++ [n] else acc.2))
    acc

/-- One iteration of the Kahn while-loop body over the current group
(the JS clears `queue` before re-filling it, so the accumulator queue
starts empty). -/
def kahnStep (graph : String → List String) (group : List String)
    (deg : String → Int) : (String → Int) × List String :=
  group.foldl (fun acc id => relaxSuccs (graph id) acc) (deg, [])

/-- The `while (queue.length > 0)` loop of `buildDAG`
(task-decomposer.js lines 319-333), with explicit fuel.  Every node is
enqueued at most once (its in-degree decreases strictly and is tested
for exact equality with zero, and initially-zero nodes are never
successors), so each iteration consumes at least one never-seen node and
the loop runs at most `keys.length` times: fuel `keys.length + 1` is
never exhausted and the embedding agrees with the unbounded JS loop. -/
def kahnLoop (graph : String → List String) :
    Nat → List String → (String → Int) → List (List String)
  | 0, _, _ => []
  | fuel + 1, queue, deg =>
      if queue = [] then []
      else
        let (deg', queue') := kahnStep graph queue deg
        queue :: kahnLoop graph fuel queue' deg'

/-- `TaskDecomposer.buildDAG` (task-decomposer.js lines 291-341):
builds the adjacency lists and in-degrees (edges whose dependency id is
not a subtask id are skipped by the `if (graph[depId])` guard), runs
Kahn's algorithm to compute the parallel groups, and returns the DAG
object.  Note that it never throws: a cyclic component simply never
reaches in-degree zero and its nodes are absent from `parallelGroups`;
the only validity signal is `isValid = (parallelGroups.length > 0)`. -/
def buildDAG (subtasks : List Subtask) : DAG :=
  let keys := jsKeys (subtasks.map Subtask.id)
  let init : (String → List String) × (String → Int) := (fun _ => [], fun _ => 0)
  let gd := subtasks.foldl
    (fun acc st =>
      st.dependsOn.foldl
        (fun (acc : (String → List String) × (String → Int)) dep =>
          if dep ∈ keys then
            (setMap acc.1 dep (acc.1 dep ++ [st.id]),
             setMap acc.2 st.id (acc.2 st.id + 1))
          else acc)
        acc)
    init
  let queue0 := keys.filter (fun id => gd.2 id = 0)
  let parallelGroups := kahnLoop gd.1 (keys.length + 1) queue0 gd.2
  { subtasks := subtasks
    graph := gd.1
    parallelGroups := parallelGroups
    isValid := parallelGroups.length > 0 }

/-- The indicator record produced by `analyzeComplexity`
(task-decomposer.js lines 23-64); only the fields that `decompose`
branches on are carried. -/
structure Complexity where
  hasMultipleSteps : Bool
  hasMultipleTargets : Bool
  hasDeepAnalysis : Bool
  hasDependencies : Bool
  shouldDecompose : Bool
deriving DecidableEq, Repr

/-- Id of the i-th batch-processing subtask of the file-batch template. -/
def processFileId (i : Nat) : String := s!"process_file_{i}"

/-- Body of `decomposeFileBatchTask` (task-decomposer.js lines 127-174)
as a function of `n = Math.min(fileCount, 10)`, the number of process
subtasks emitted by its loop. -/
def fileBatchSubtasks (n : Nat) : List Subtask :=
  let scan : Subtask :=
    { id := "scan_files", task := "扫描并列出所有目标文件", dependsOn := []
      estimatedDuration := 10000, requiredCapabilities := some ["read", "list_files"] }
  let procs : List Subtask := (List.range n).map fun i =>
    { id := processFileId i, task := s!"处理第{i + 1}批文件"
      dependsOn := ["scan_files"], estimatedDuration := 30000
      requiredCapabilities := some ["read", "write", "analyze"] }
  let agg : Subtask :=
    { id := "aggregate_results", task := "汇总所有文件处理结果"
      dependsOn := procs.map Subtask.id, estimatedDuration := 15000
      requiredCapabilities := some ["read", "write", "aggregate"] }
  scan :: procs ++ [agg]

/-- `decomposeFileBatchTask`, parameterised by the numeric capture of
the JS regex `/(\d+)个?.*文件/` on the task text (`none` when the regex
does not match, in which case the source defaults `fileCount` to 5). -/
def decomposeFileBatchTask (fileCountMatch : Option Nat) : List Subtask :=
  fileBatchSubtasks (min (fileCountMatch.getD 5) 10)

/-- `decomposeStepByStepTask` (task-decomposer.js lines 179-209): a
fixed four-step chain. -/
def decomposeStepByStepTask : List Subtask :=
  [ { id := "step_1", dependsOn := [], estimatedDuration := 30000
      requiredCapabilities := some ["read", "fetch"] }
  , { id := "step_2", dependsOn := ["step_1"], estimatedDuration := 30000
      requiredCapabilities := some ["read", "write", "transform"] }
  , { id := "step_3", dependsOn := ["step_2"], estimatedDuration := 30000
      requiredCapabilities := some ["read", "analyze"] }
  , { id := "step_4", dependsOn := ["step_3"], estimatedDuration := 30000
      requiredCapabilities := some ["read", "write", "generate"] } ]

/-- `decomposeAnalysisTask` (task-decomposer.js lines 214-251): a fixed
four-node chain. -/
def decomposeAnalysisTask : List Subtask :=
  [ { id := "collect_info", task := "收集相关信息和背景资料", dependsOn := []
      estimatedDuration := 20000, requiredCapabilities := some ["read", "search", "fetch"] }
  , { id := "analyze_structure", task := "分析结构和组成部分", dependsOn := ["collect_info"]
      estimatedDuration := 30000, requiredCapabilities := some ["read", "analyze"] }
  , { id := "deep_analysis", task := "深度分析和挖掘", dependsOn := ["analyze_structure"]
      estimatedDuration := 60000, requiredCapabilities := some ["read", "analyze", "reasoning"] }
  , { id := "synthesize_report", task := "综合分析并生成报告", dependsOn := ["deep_analysis"]
      estimatedDuration := 30000, requiredCapabilities := some ["read", "write", "synthesize"] } ]

/-- `decomposeGenericTask` (task-decomposer.js lines 256-284): the
prepare → execute → verify chain. -/
def decomposeGenericTask : List Subtask :=
  [ { id := "prepare", task := "准备和规划", dependsOn := []
      estimatedDuration := 10000, requiredCapabilities := some ["read", "plan"] }
  , { id := "execute", dependsOn := ["prepare"]
      estimatedDuration := 60000, requiredCapabilities := some ["read", "write", "execute"] }
  , { id := "verify", task := "验证和整理结果", dependsOn := ["execute"]
      estimatedDuration := 15000, requiredCapabilities := some ["read", "verify"] } ]

/-- `TaskDecomposer.decompose` (task-decomposer.js lines 72-122),
parameterised by the complexity indicators, by whether the task text
contains the substring "文件" (`task.includes('文件')`), and by the
numeric capture of the file-count regex.  The non-decomposed branch
returns the literal single-node DAG of lines 77-90, whose JS object
carries no `graph`/`isValid` fields; the embedding fills them with the
empty graph and `true` (they are never read on that branch). -/
def decompose (c : Complexity) (taskHasFileWord : Bool)
    (fileCountMatch : Option Nat) : DAG :=
  if !c.shouldDecompose then
    { subtasks := [{ id := "subtask_1", dependsOn := []
                     estimatedDuration := 60000
                     requiredCapabilities := some ["read", "write"] }]
      graph := fun _ => []
      parallelGroups := [["subtask_1"]]
      isValid := true }
  else
    let subtasks :=
      if c.hasMultipleTargets && taskHasFileWord then
        decomposeFileBatchTask fileCountMatch
      else if c.hasMultipleSteps then decomposeStepByStepTask
      else if c.hasDeepAnalysis then decomposeAnalysisTask
      else decomposeGenericTask
    buildDAG subtasks

/-- A parallel-group list is a valid topological partition of a subtask
list: every subtask id occurs in exactly one group (and exactly once in
it), and no dependency of a subtask occurs in the subtask's own group or
in any later group. -/
def ValidTopoPartition (groups : List (List String)) (subtasks : List Subtask) : Prop :=
  (∀ st ∈ subtasks, groups.flatten.count st.id = 1) ∧
  (∀ st ∈ subtasks, ∀ i < groups.length, st.id ∈ groups.getD i [] →
    ∀ dep ∈ st.dependsOn, ∀ j < groups.length, i ≤ j → dep ∉ groups.getD j [])

instance (groups : List (List String)) (subtasks : List Subtask) :
    Decidable (ValidTopoPartition groups subtasks) := by
  unfold ValidTopoPartition; infer_instance

/-- The subtask list with an artificially introduced dependency cycle
used to test claim C1: `a` and `b` depend on each other while `c` is
independent. -/
def cyclicSubtasks : List Subtask :=
  [ { id := "a", dependsOn := ["b"] }
  , { id := "b", dependsOn := ["a"] }
  , { id := "c", dependsOn := [] } ]

/-- C1: refuted — `buildDAG` never raises a "cycle detected" error.  On
a subtask list whose `dependsOn` edges contain a cycle (`a ↔ b`) plus
one independent node, construction succeeds silently: the returned DAG
reports `isValid = true` (because the sole acyclic node yields one
parallel group) and the cyclic subtasks are simply dropped from
`parallelGroups`, so the cyclic input is accepted as a valid DAG.  In
the embedding `buildDAG` is a total function with no error outcome,
mirroring that the source function contains no throw at all. -/
theorem C1_cycle_silently_accepted :
    (buildDAG cyclicSubtasks).isValid = true ∧
    (buildDAG cyclicSubtasks).parallelGroups = [["c"]] ∧
    "a" ∉ (buildDAG cyclicSubtasks).parallelGroups.flatten ∧
    "b" ∉ (buildDAG cyclicSubtasks).parallelGroups.flatten := by
  decide

/-- Every instantiation of the file-batch template (at most ten process
subtasks) yields a valid topological partition. -/
theorem fileBatch_validTopo (n : Nat) (hn : n ≤ 10) :
    ValidTopoPartition (buildDAG (fileBatchSubtasks n)).parallelGroups
      (fileBatchSubtasks n) := by
  interval_cases n <;> decide

set_option maxHeartbeats 2000000 in
/-- C7: every DAG the decomposer produces — over all complexity
indicator combinations, file-word detections and file-count regex
captures — has a `parallelGroups` list that is a valid topological
partition: each subtask id appears in exactly one group, and no
dependency of a subtask appears in its own or a later group. -/
theorem C7_decompose_valid_topological_partition
    (c : Complexity) (taskHasFileWord : Bool) (fileCountMatch : Option Nat) :
    ValidTopoPartition (decompose c taskHasFileWord fileCountMatch).parallelGroups
      (decompose c taskHasFileWord fileCountMatch).subtasks := by
  obtain ⟨hms, hmt, hda, hdep, hsd⟩ := c
  cases hsd <;> cases hmt <;> cases taskHasFileWord <;> cases hms <;> cases hda <;>
    simp only [decompose, decomposeFileBatchTask, Bool.not_true, Bool.not_false,
      Bool.true_and, Bool.false_and, Bool.and_true, Bool.and_false,
      Bool.false_eq_true, if_true, if_false, ite_true, ite_false] <;>
    first
      | exact fileBatch_validTopo _ (Nat.min_le_right _ 10)
      | decide

/-- Stable insertion of `x` into `l`: `x` lands before the first
element strictly greater than it (under the total preorder encoded by
`le`), hence after every element it ties with. -/
def stableInsert {α : Type} (le : α → α → Bool) (x : α) : List α → List α
  | [] => [x]
  | y :: ys => if le x y && !(le y x) then x :: y :: ys else y :: stableInsert le x ys

/-- Stable sort under the total preorder encoded by `le` (`le a b` is
JS `comparator(a,b) <= 0`).  A JS `Array.prototype.sort` with a
consistent comparator is required to be stable (ES2019), and every
stable sort of a list under the same total preorder produces the same
output, so this structural insertion sort is an exact model. -/
def stableSortBy {α : Type} (le : α → α → Bool) (l : List α) : List α :=
  l.foldl (fun acc x => stableInsert le x acc) []

/-! ## Result Aggregator (the ResultAggregator module, src/unnamed/part_009) -/

namespace ResultAggregator

/-- The metadata object optionally attached to a collected result; only
the fields the aggregator reads (`metadata?.confidence`,
`metadata?.agentName`). -/
structure Meta where
  confidence : Option Rat := none
  agentName : Option String := none
deriving DecidableEq, Repr

/-- An element of the `results` array passed to `aggregate`.  `result`
is the payload; the embedding covers the string-payload case (object
payloads go through `JSON.stringify` in the source and add nothing to
the claims below), with `none` modelling a JS `undefined` payload. -/
structure AggItem where
  subtaskId : Option String := none
  result : Option String := none
  metadata : Option Meta := none
deriving DecidableEq, Repr

/-- The object returned by `aggregate` and the per-strategy helpers;
fields that a given strategy does not set stay `none` (absent in JS). -/
structure AggOutput where
  success : Bool
  result : Option String := none
  error : Option String := none
  source : Option String := none
  count : Option Nat := none
  uniqueCount : Option Nat := none
  conflictCount : Option Nat := none
  confidence : Option Rat := none
  selectedFrom : Option String := none
  voteDistribution : Option (List (String × Nat)) := none
  metadata : Option Meta := none
deriving DecidableEq, Repr

/-- JS string conversion of a payload: a string passes through and
`String(undefined)` is `"undefined"`. -/
def resultStr (r : Option String) : String := r.getD "undefined"

/-- `aggregateByConcat` (part_009 lines 91-104). -/
def aggregateByConcat (results : List AggItem) : AggOutput :=
  { success := true
    result := some (String.intercalate "\n\n---\n\n"
      (results.map fun r => resultStr r.result))
    source := some "concat"
    count := some results.length }

/-- `deduplicate` (part_009 lines 224-235): keep the first occurrence
of each payload key (a JS `Set` holds the string payload, or the
`undefined` key for an `undefined` payload). -/
def dedupAux (seen : List (Option String)) : List AggItem → List AggItem
  | [] => []
  | r :: rest =>
      if r.result ∈ seen then dedupAux seen rest
      else r :: dedupAux (r.result :: seen) rest

def deduplicate (results : List AggItem) : List AggItem := dedupAux [] results

/-- Collapse every maximal whitespace run of a string to one space,
so that an exact split on spaces reproduces a JS `split(/\s+/)`. -/
def collapseWsAux : List Char → Bool → List Char
  | [], _ => []
  | c :: cs, prevWs =>
      if c.isWhitespace then
        if prevWs then collapseWsAux cs true
        else ' ' :: collapseWsAux cs true
      else c :: collapseWsAux cs false

/-- JS `str.split(/\s+/)`: split on whitespace runs (a leading or
trailing run contributes one empty token, and `""` yields `[""]`). -/
def jsSplitWs (s : String) : List String :=
  (String.mk (collapseWsAux s.toList false)).split (· = ' ')

/-- `calculateSimilarity` (part_009 lines 294-306): token-set Jaccard
similarity of the lowercased payloads.  An `undefined` payload goes
through `JSON.stringify`, stays `undefined`, and the subsequent
`.toLowerCase()` throws a TypeError — hence the error outcome. -/
def calculateSimilarity (a b : Option String) : Except String Rat :=
  match a, b with
  | some sa, some sb =>
      let wordsA := (jsSplitWs sa.toLower).toFinset
      let wordsB := (jsSplitWs sb.toLower).toFinset
      -- `mkRat a b` is the exact value of the JS division `a / b`
      -- (the token-set union is never empty, so no NaN arises)
      .ok (mkRat ((wordsA ∩ wordsB).card : Int) (wordsA ∪ wordsB).card)
  | _, _ => .error "TypeError: Cannot read properties of undefined (reading 'toLowerCase')"

/-- All ordered pairs `(l[i], l[j])` with `i < j`, in the traversal
order of the nested loops of `detectConflicts`. -/
def pairsAfter : List AggItem → List (AggItem × AggItem)
  | [] => []
  | x :: xs => (xs.map fun y => (x, y)) ++ pairsAfter xs

/-- `detectConflicts` (part_009 lines 240-262): a pair is a potential
conflict when its similarity is strictly between 0.3 and the configured
`conflictThreshold`. -/
def detectConflicts (uniq : List AggItem) (threshold : Rat) :
    Except String (List (Option String × Option String × Rat)) :=
  (pairsAfter uniq).foldlM
    (fun acc p => do
      let sim ← calculateSimilarity p.1.result p.2.result
      pure (if mkRat 3 10 < sim ∧ sim < threshold then
        acc ++ [(p.1.subtaskId, p.2.subtaskId, sim)] else acc))
    []

/-- The declared confidence of a result: `metadata?.confidence || 0.5`
(any falsy value, including an explicit 0, falls back to 0.5). -/
def confOf (r : AggItem) : Rat :=
  match r.metadata with
  | some m =>
      match m.confidence with
      | some c => if c = 0 then mkRat 1 2 else c
      | none => mkRat 1 2
  | none => mkRat 1 2

/-- `resolveConflicts` (part_009 lines 267-274): sort by declared
confidence, highest first (stable; the `conflicts` argument of the
source function is ignored by its body). -/
def resolveConflicts (results : List AggItem) : List AggItem :=
  stableSortBy (fun a b => decide (confOf b ≤ confOf a)) results

/-- The section header agent name: `metadata?.agentName || 'Agent'`. -/
def agentNameOf (r : AggItem) : String :=
  match r.metadata with
  | some m =>
      match m.agentName with
      | some n => if n = "" then "Agent" else n
      | none => "Agent"
  | none => "Agent"

/-- `mergeTexts` (part_009 lines 279-289). -/
def mergeTexts (results : List AggItem) : String :=
  String.intercalate "\n\n---\n\n"
    (results.enum.map fun p =>
      s!"[{agentNameOf p.2} {p.1 + 1}]\n{resultStr p.2.result}")

/-- `aggregateBySmartMerge` (part_009 lines 109-130). -/
def aggregateBySmartMerge (threshold : Rat) (results : List AggItem) :
    Except String AggOutput := do
  let uniq := deduplicate results
  let conflicts ← detectConflicts uniq threshold
  let resolved := resolveConflicts uniq
  let merged := mergeTexts resolved
  pure { success := true
         result := some merged
         source := some "smart_merge"
         count := some results.length
         uniqueCount := some uniq.length
         conflictCount := some conflicts.length }

/-- The vote groups of `aggregateByVote`: JS `Map` insertion order,
keyed by the payload (or the `undefined` key), with the member lists in
arrival order. -/
def voteGroupsAux (acc : List (Option String × List AggItem)) :
    List AggItem → List (Option String × List AggItem)
  | [] => acc
  | r :: rest =>
      let key := r.result
      let acc' :=
        if (acc.map Prod.fst).contains key then
          acc.map fun g => if g.1 = key then (g.1, g.2 ++ [r]) else g
        else acc ++ [(key, [r])]
      voteGroupsAux acc' rest

/-- The winner scan of `aggregateByVote`: the first group whose count
strictly exceeds every earlier count. -/
def voteWinner (groups : List (Option String × List AggItem)) :
    Option AggItem × Nat :=
  groups.foldl
    (fun acc g =>
      if g.2.length > acc.2 then (g.2.head?, g.2.length) else acc)
    (none, 0)

/-- `aggregateByVote` (part_009 lines 135-174).  Building the
`voteDistribution` entry calls `key.substring(0, 100)`, which throws on
the `undefined` key; and an empty input would leave `winner` null and
throw on `winner.result` (unreachable through `aggregate`). -/
def aggregateByVote (results : List AggItem) : Except String AggOutput := do
  let groups := voteGroupsAux [] results
  let dist ← groups.foldlM
    (fun acc g =>
      match g.1 with
      | some k => pure (acc ++ [(k.take 100, g.2.length)])
      | none => throw "TypeError: Cannot read properties of undefined (reading 'substring')")
    ([] : List (String × Nat))
  match voteWinner groups with
  | (some w, maxVotes) =>
      pure { success := true
             result := w.result
             source := some "vote"
             confidence := some (mkRat (maxVotes : Int) results.length)
             voteDistribution := some dist }
  | (none, _) => throw "TypeError: Cannot read properties of null (reading 'result')"

/-- The priority of a result: `priorities[r.subtaskId] || 0`. -/
def priorityOf (priorities : String → Option Rat) (r : AggItem) : Rat :=
  match r.subtaskId with
  | some id =>
      match priorities id with
      | some p => if p = 0 then 0 else p
      | none => 0
  | none => 0

/-- `aggregateByPriority` (part_009 lines 179-194): stable sort by
caller-supplied priority, highest first; the head wins.  An empty input
would throw on `sorted[0].result` (unreachable through `aggregate`). -/
def aggregateByPriority (results : List AggItem)
    (priorities : String → Option Rat) : Except String AggOutput :=
  let sorted := stableSortBy
    (fun a b => decide (priorityOf priorities b ≤ priorityOf priorities a)) results
  match sorted.head? with
  | some w =>
      .ok { success := true
            result := w.result
            source := some "priority"
            selectedFrom := w.subtaskId }
  | none => .error "TypeError: Cannot read properties of undefined (reading 'result')"

/-- Whether a string contains another as a substring (JS `includes`). -/
def containsSub (s k : String) : Bool := (s.splitOn k).length ≥ 2 || k == ""

/-- `extractKeyPoints` (part_009 lines 311-325), rendered as the list
of key sentences (the source returns an object; no claim depends on its
exact shape). -/
def extractKeyPoints (text : String) : List String :=
  let sentences := (text.split fun c =>
    c = '。' ∨ c = '！' ∨ c = '？' ∨ c = '.' ∨ c = '!' ∨ c = '?').filter
    fun s => s.trim.length > 10
  let keywords := ["重要", "关键", "核心", "主要", "总结", "结论"]
  ((sentences.filter fun s => keywords.any fun k => containsSub s k).take 5)

/-- `aggregateBySummarize` (part_009 lines 199-219).  The source payload
is an object `{summary, fullText, originalTask}`; the embedding renders
it as a string (no claim depends on the summarize payload). -/
def aggregateBySummarize (results : List AggItem) (originalTask : String) :
    AggOutput :=
  let fullText := String.intercalate "\n\n"
    (results.map fun r => resultStr r.result)
  let summary := extractKeyPoints fullText
  { success := true
    result := some (String.intercalate "\n" summary ++ "\n" ++
      (fullText.take 5000 ++ "...") ++ "\n" ++ originalTask)
    source := some "summarize"
    count := some results.length }

/-- `ResultAggregator.aggregate` (part_009 lines 46-86), with the
instance configuration (`conflictThreshold`, default 0.8) and the
caller options (`strategy`, `priorities`, `originalTask`) as explicit
arguments.  `none` for `results` models a missing argument.  Empty or
missing input returns the structured failure object of line 53; a
single result short-circuits at lines 56-63 before any strategy
dispatch; otherwise the strategy switch runs, with unknown strategies
falling through to concatenation. -/
def aggregate (threshold : Rat) (results : Option (List AggItem))
    (strategy : String) (priorities : String → Option Rat)
    (originalTask : String) : Except String AggOutput :=
  match results with
  | none => .ok { success := false, error := some "没有结果可聚合" }
  | some [] => .ok { success := false, error := some "没有结果可聚合" }
  | some [r] =>
      .ok { success := true
            result := r.result
            source := some "single"
            metadata := r.metadata }
  | some rs =>
      if strategy = "concat" then .ok (aggregateByConcat rs)
      else if strategy = "smart_merge" then aggregateBySmartMerge threshold rs
      else if strategy = "vote" then aggregateByVote rs
      else if strategy = "priority" then aggregateByPriority rs priorities
      else if strategy = "summarize" then .ok (aggregateBySummarize rs originalTask)
      else .ok (aggregateByConcat rs)

/-- The per-group body of the loop of `aggregateByDAG` (part_009 lines
336-351): look up each id of the group in the results map, drop the
absent ones (`filter(r => r !== undefined)` of line 339), and when any
remain, aggregate them with `smart_merge` and append the group-level
output. -/
def dagGroupStep (threshold : Rat) (results : String → Option AggItem)
    (acc : List AggOutput) (group : List String) : Except String (List AggOutput) := do
  let groupResults := group.filterMap results
  if groupResults.length > 0 then
    let agg ← aggregate threshold (some groupResults) "smart_merge"
      (fun _ => none) ""
    pure (acc ++ [agg])
  else pure acc

/-- `aggregateByDAG` (part_009 lines 332-358): aggregate each parallel
group's present results with `smart_merge`, then aggregate the group
outputs with `concat`.  Subtask ids with no entry in the results map
contribute nothing, and a group with no present results is skipped. -/
def aggregateByDAG (threshold : Rat) (parallelGroups : List (List String))
    (results : String → Option AggItem) : Except String AggOutput := do
  let groupOuts ← parallelGroups.foldlM (dagGroupStep threshold results) []
  aggregate threshold
    (some (groupOuts.map fun r => ({ result := r.result } : AggItem)))
    "concat" (fun _ => none) ""

end ResultAggregator

/-- C9: aggregation is idempotent for the `concat` and `smart_merge`
strategies — if aggregating a non-empty results list yields a final
result with payload P, then re-aggregating the singleton list holding
that final result returns the same payload P (the re-aggregation takes
the single-result short-circuit of `aggregate`, which returns the
element's own `result` field unchanged). -/
theorem C9_aggregate_idempotent (threshold : Rat) (rs : List ResultAggregator.AggItem)
    (strategy : String) (fin : ResultAggregator.AggOutput)
    (hs : strategy = "concat" ∨ strategy = "smart_merge")
    (hne : rs ≠ [])
    (hagg : ResultAggregator.aggregate threshold (some rs) strategy
      (fun _ => none) "" = .ok fin) :
    ∃ out, ResultAggregator.aggregate threshold
        (some [{ result := fin.result }]) strategy (fun _ => none) "" = .ok out ∧
      out.result = fin.result := by
  exact ⟨_, rfl, rfl⟩

/-- Witness for C9 at a concrete two-element `concat` aggregation. -/
theorem C9_aggregate_idempotent_witness :
    ∃ out, ResultAggregator.aggregate 0.8
        (some [{ result := (ResultAggregator.AggOutput.mk true
          (some "x\n\n---\n\ny") none (some "concat") (some 2)
          none none none none none none).result }]) "concat" (fun _ => none) "" = .ok out ∧
      out.result = (ResultAggregator.AggOutput.mk true
          (some "x\n\n---\n\ny") none (some "concat") (some 2)
          none none none none none none).result := by
  exact C9_aggregate_idempotent 0.8
    [{ result := some "x" }, { result := some "y" }] "concat" _
    (Or.inl rfl) (by simp) rfl

/-- C10: for every aggregation strategy, a missing or empty results
list makes `aggregate` return the structured failure object
`{success: false, error: '没有结果可聚合'}` with no payload, rather than
throwing (no error outcome) — behaviour not stated in the spec. -/
theorem C10_aggregate_empty_structured_failure (threshold : Rat) (strategy : String)
    (priorities : String → Option Rat) (originalTask : String) :
    ResultAggregator.aggregate threshold none strategy priorities originalTask =
      .ok { success := false, error := some "没有结果可聚合" } ∧
    ResultAggregator.aggregate threshold (some []) strategy priorities originalTask =
      .ok { success := false, error := some "没有结果可聚合" } := by
  exact ⟨rfl, rfl⟩

/-! ## Admission / concurrency controller (redis-concurrency.js) -/

namespace Concurrency

/-- The per-tier concurrency limits, identical in the Redis-backed and
the local controller (redis-concurrency.js lines 20-26 and 120-126);
`none` for a branch outside the table. -/
def limits : String → Option Nat := fun branch =>
  if branch = "Simple" then some 10
  else if branch = "Standard" then some 4
  else if branch = "Batch" then some 2
  else if branch = "Orchestrator" then some 2
  else if branch = "Deep" then some 1
  else none

/-- Controller state: the set of task ids holding a slot for each tier
(one Redis set per key, or the local `Map` of JS `Set`s; an absent key
is the empty set). -/
def SlotState := String → Finset String

def emptyState : SlotState := fun _ => ∅

/-- The shared check-then-reserve transition: reserve the slot iff the
tier's current cardinality is below the limit.  Both implementations
perform it atomically — the local controller has no interleaving point
between check and `add` (single-threaded event loop, no `await`), and
the Redis controller runs it as one Lua script — so any concurrent
execution is a serialisation of these atomic transitions. -/
def acquireWith (l : Nat) (s : SlotState) (b t : String) : Bool × SlotState :=
  if (s b).card < l then (true, setMap s b (insert t (s b))) else (false, s)

/-- `LocalConcurrencyController.acquireSlot` (redis-concurrency.js
lines 129-140): for a branch outside the limit table the JS comparison
`size < undefined` is false and the acquisition fails. -/
def localAcquire (s : SlotState) (b t : String) : Bool × SlotState :=
  match limits b with
  | some l => acquireWith l s b t
  | none => (false, s)

/-- `RedisConcurrencyController.acquireSlot` (redis-concurrency.js
lines 37-59): the Lua script uses `limits[branch] || 1`, defaulting an
unknown branch to limit 1 (no entry of the table is 0, so the falsy
fallback coincides with the missing-key fallback). -/
def redisAcquire (s : SlotState) (b t : String) : Bool × SlotState :=
  acquireWith ((limits b).getD 1) s b t

/-- `releaseSlot` in either controller: remove the task id from the
tier's set. -/
def releaseSlot (s : SlotState) (b t : String) : SlotState :=
  setMap s b ((s b).erase t)

/-- An atomic controller operation. -/
inductive SlotOp where
  | acq (branch taskId : String)
  | rel (branch taskId : String)

def localStep (s : SlotState) : SlotOp → SlotState
  | .acq b t => (localAcquire s b t).2
  | .rel b t => releaseSlot s b t

def redisStep (s : SlotState) : SlotOp → SlotState
  | .acq b t => (redisAcquire s b t).2
  | .rel b t => releaseSlot s b t

def localRun (s : SlotState) (ops : List SlotOp) : SlotState := ops.foldl localStep s

def redisRun (s : SlotState) (ops : List SlotOp) : SlotState := ops.foldl redisStep s

/-- Sequential execution of a batch of `acquireSlot` calls on one tier
(each call is atomic, so any interleaving of concurrent calls is one of
these orders), counting the successes. -/
def acquireBatchWith (l : Nat) (s : SlotState) (b : String) :
    List String → Nat × SlotState
  | [] => (0, s)
  | t :: rest =>
      let r := acquireWith l s b t
      let res := acquireBatchWith l r.2 b rest
      ((if r.1 then 1 else 0) + res.1, res.2)

theorem acquireWith_card_le {l l' : Nat} {s : SlotState} {b' t b : String}
    (hc : (s b).card ≤ l) (hl : b' = b → l' = l) :
    (((acquireWith l' s b' t).2) b).card ≤ l := by
  unfold acquireWith
  by_cases h : (s b').card < l'
  · simp only [h, if_pos]
    by_cases hb : b = b'
    · subst hb
      have hll : l' = l := hl rfl
      subst hll
      simp only [setMap, if_pos rfl]
      calc (insert t (s b)).card ≤ (s b).card + 1 := Finset.card_insert_le _ _
        _ ≤ l' := by omega
    · simp [setMap, hb, hc]
  · simp [h, hc]

theorem releaseSlot_card_le {l : Nat} {s : SlotState} {b' t b : String}
    (hc : (s b).card ≤ l) : ((releaseSlot s b' t) b).card ≤ l := by
  unfold releaseSlot
  by_cases hb : b = b'
  · subst hb
    simp only [setMap, if_pos rfl]
    exact le_trans (Finset.card_erase_le) hc
  · simp [setMap, hb, hc]

theorem localStep_card_le {s : SlotState} {op : SlotOp} {b : String} {l : Nat}
    (h : limits b = some l) (hc : (s b).card ≤ l) :
    ((localStep s op) b).card ≤ l := by
  cases op with
  | acq b' t =>
      show (((localAcquire s b' t).2) b).card ≤ l
      rcases hlim : limits b' with _ | l'
      · simpa [localAcquire, hlim] using hc
      · have hll : b' = b → l' = l := by
          intro hb; subst hb
          rw [h] at hlim
          exact (Option.some.inj hlim).symm
        simpa [localAcquire, hlim] using acquireWith_card_le hc hll
  | rel b' t => exact releaseSlot_card_le hc

theorem redisStep_card_le {s : SlotState} {op : SlotOp} {b : String} {l : Nat}
    (h : limits b = some l) (hc : (s b).card ≤ l) :
    ((redisStep s op) b).card ≤ l := by
  cases op with
  | acq b' t =>
      show (((redisAcquire s b' t).2) b).card ≤ l
      refine acquireWith_card_le hc ?_
      intro hb; subst hb
      simp [h]
  | rel b' t => exact releaseSlot_card_le hc

theorem localRun_card_le {ops : List SlotOp} {s : SlotState} {b : String} {l : Nat}
    (h : limits b = some l) (hc : (s b).card ≤ l) :
    ((localRun s ops) b).card ≤ l := by
  induction ops generalizing s with
  | nil => exact hc
  | cons op rest ih => exact ih (localStep_card_le h hc)

theorem redisRun_card_le {ops : List SlotOp} {s : SlotState} {b : String} {l : Nat}
    (h : limits b = some l) (hc : (s b).card ≤ l) :
    ((redisRun s ops) b).card ≤ l := by
  induction ops generalizing s with
  | nil => exact hc
  | cons op rest ih => exact ih (redisStep_card_le h hc)

/-- In any serialisation of a batch of distinct fresh acquisitions, the
number of successes is the remaining capacity, capped by the batch
size. -/
theorem acquireBatchWith_successes {l : Nat} {b : String} :
    ∀ (ids : List String) (s : SlotState), ids.Nodup →
      (∀ t ∈ ids, t ∉ s b) →
      (acquireBatchWith l s b ids).1 = min ids.length (l - (s b).card) := by
  intro ids
  induction ids with
  | nil => intro s _ _; simp [acquireBatchWith]
  | cons t rest ih =>
      intro s hnd hfresh
      have ht : t ∉ s b := hfresh t (by simp)
      unfold acquireBatchWith acquireWith
      by_cases h : (s b).card < l
      · simp only [h, if_pos, if_true]
        have hsb : (setMap s b (insert t (s b))) b = insert t (s b) := by
          simp [setMap]
        have hcard : ((setMap s b (insert t (s b))) b).card = (s b).card + 1 := by
          rw [hsb]; exact Finset.card_insert_of_not_mem ht
        have hfresh' : ∀ u ∈ rest, u ∉ (setMap s b (insert t (s b))) b := by
          intro u hu
          rw [hsb]
          simp only [Finset.mem_insert, not_or]
          exact ⟨fun he => (List.nodup_cons.mp hnd).1 (he ▸ hu),
                 hfresh u (List.mem_cons_of_mem _ hu)⟩
        have := ih (setMap s b (insert t (s b))) (List.nodup_cons.mp hnd).2 hfresh'
        rw [this, hcard]
        simp only [List.length_cons]
        omega
      · simp only [h, if_neg, if_false, ite_false, Bool.false_eq_true]
        have := ih s (List.nodup_cons.mp hnd).2
          (fun u hu => hfresh u (List.mem_cons_of_mem _ hu))
        rw [this]
        simp only [List.length_cons]
        omega

end Concurrency

/-- C4: slot-limit safety of both concurrency controllers.  (a) After
any sequence of atomic `acquireSlot`/`releaseSlot` operations starting
from the empty state, the set of task ids holding slots for a tier in
the limit table never exceeds that tier's limit, for both the local and
the Redis-backed controller.  (b) Any serialisation of N+1 concurrent
`acquireSlot` calls with distinct task ids against a tier of limit N
yields exactly N successes. -/
theorem C4_acquireSlot_limit_safety (b : String) (l : Nat)
    (hb : Concurrency.limits b = some l) :
    (∀ ops : List Concurrency.SlotOp,
      ((Concurrency.localRun Concurrency.emptyState ops) b).card ≤ l ∧
      ((Concurrency.redisRun Concurrency.emptyState ops) b).card ≤ l) ∧
    (∀ ids : List String, ids.Nodup → ids.length = l + 1 →
      (Concurrency.acquireBatchWith l Concurrency.emptyState b ids).1 = l) := by
  constructor
  · intro ops
    have h0 : ((Concurrency.emptyState : Concurrency.SlotState) b).card ≤ l := by
      simp [Concurrency.emptyState]
    exact ⟨Concurrency.localRun_card_le hb h0, Concurrency.redisRun_card_le hb h0⟩
  · intro ids hnd hlen
    have := @Concurrency.acquireBatchWith_successes l b ids
      Concurrency.emptyState hnd (by intro t _; simp [Concurrency.emptyState])
    rw [this, hlen]
    simp [Concurrency.emptyState]

/-- Witness for C4 on the `Standard` tier (limit 4) with five distinct
task ids and a concrete operation sequence. -/
theorem C4_acquireSlot_limit_safety_witness :
    Concurrency.limits "Standard" = some 4 ∧
    (((Concurrency.localRun Concurrency.emptyState
        [.acq "Standard" "t1", .acq "Standard" "t2", .rel "Standard" "t1"])
        "Standard").card ≤ 4 ∧
      ((Concurrency.redisRun Concurrency.emptyState
        [.acq "Standard" "t1", .acq "Standard" "t2", .rel "Standard" "t1"])
        "Standard").card ≤ 4) ∧
    (Concurrency.acquireBatchWith 4 Concurrency.emptyState "Standard"
      ["t1", "t2", "t3", "t4", "t5"]).1 = 4 := by
  refine ⟨by decide, (C4_acquireSlot_limit_safety "Standard" 4 (by decide)).1 _,
    (C4_acquireSlot_limit_safety "Standard" 4 (by decide)).2
      ["t1", "t2", "t3", "t4", "t5"] (by decide) (by decide)⟩

/-! ## Retry / recovery executor (the RetryExecutor module in index.js) -/

namespace RetryExecutor

/-- The default downgrade chain of the RetryExecutor constructor
(index.js lines 1902-1907). -/
def downgradeChain : String → Option String := fun b =>
  if b = "Deep" then some "Standard"
  else if b = "Orchestrator" then some "Standard"
  else if b = "Batch" then some "Standard"
  else if b = "Standard" then some "Simple"
  else none

/-- Outcome of `downgradeAndRetry`: success under a downgraded tier,
the `{success: false, reason: '已到最低策略级别'}` return of lines
2124-2129, the re-thrown error of line 2160 after the lowest tier also
failed, or fuel exhaustion (an artifact of the embedding, shown below
to be unreachable with the configured chain). -/
inductive DGOutcome where
  | ok (fromTier toTier : String)
  | failResult (error reason : String)
  | thrown (tier : String)
  | outOfFuel
deriving DecidableEq, Repr

/-- `RetryExecutor.downgradeAndRetry` (index.js lines 2120-2162).  The
oracle tells whether `fn(downgradedContext)` succeeds when re-invoked
under a given tier (the resource-exhaustion profile of the operation).
If the chain offers no entry for the current tier, the failure result
of lines 2124-2129 is returned; otherwise the operation runs under the
downgraded tier; on failure it recurses when the chain continues, and
re-throws the error when it does not (lines 2156-2160). -/
def downgradeAndRetry (chain : String → Option String) (oracle : String → Bool) :
    Nat → String → DGOutcome
  | 0, _ => .outOfFuel
  | fuel + 1, branch =>
      match chain branch with
      | none => .failResult s!"无法降级分支: {branch}" "已到最低策略级别"
      | some next =>
          if oracle next then .ok branch next
          else
            match chain next with
            | some _ => downgradeAndRetry chain oracle fuel next
            | none => .thrown next

/-- A terminal failure: the structured failure result or a thrown
error — never a success and never a diverging computation. -/
def IsTerminalFailure : DGOutcome → Prop
  | .failResult _ _ => True
  | .thrown _ => True
  | _ => False

instance (o : DGOutcome) : Decidable (IsTerminalFailure o) := by
  unfold IsTerminalFailure; cases o <;> infer_instance

end RetryExecutor

/-- C8: with the configured chain (Deep/Orchestrator/Batch → Standard,
Standard → Simple) the downgrade process terminates after at most two
downgrades from any starting tier and for any success/failure profile —
fuel 3 is never exhausted and adding fuel does not change the result —
and when every downgraded re-invocation keeps failing the outcome is a
terminal failure (the explicit failure result at a tier with no chain
entry, or the re-thrown error after the lowest tier fails), never a
loop or a further downgrade. -/
theorem C8_downgrade_chain_terminates (branch : String) (oracle : String → Bool)
    (fuel : Nat) (hf : 3 ≤ fuel) :
    RetryExecutor.downgradeAndRetry RetryExecutor.downgradeChain oracle fuel branch ≠
      RetryExecutor.DGOutcome.outOfFuel ∧
    RetryExecutor.downgradeAndRetry RetryExecutor.downgradeChain oracle fuel branch =
      RetryExecutor.downgradeAndRetry RetryExecutor.downgradeChain oracle 3 branch ∧
    (oracle "Standard" = false → oracle "Simple" = false →
      RetryExecutor.IsTerminalFailure
        (RetryExecutor.downgradeAndRetry RetryExecutor.downgradeChain oracle fuel branch)) := by
  obtain ⟨f, rfl⟩ : ∃ f, fuel = f + 3 := ⟨fuel - 3, by omega⟩
  by_cases hD : branch = "Deep" <;> by_cases hO : branch = "Orchestrator" <;>
    by_cases hB : branch = "Batch" <;> by_cases hS : branch = "Standard" <;>
    first
      | ((subst_vars
          by_cases h1 : oracle "Standard" <;> by_cases h2 : oracle "Simple" <;>
            simp [RetryExecutor.downgradeAndRetry, RetryExecutor.downgradeChain,
              RetryExecutor.IsTerminalFailure, h1, h2])
         done)
      | (have hnone : RetryExecutor.downgradeChain branch = none := by
           simp [RetryExecutor.downgradeChain, hD, hO, hB, hS]
         simp [RetryExecutor.downgradeAndRetry, hnone,
           RetryExecutor.IsTerminalFailure])

/-- Witness for C8: starting at `Deep` with an operation that fails at
every tier, fuel 3: the run ends in a terminal failure. -/
theorem C8_downgrade_chain_terminates_witness :
    RetryExecutor.downgradeAndRetry RetryExecutor.downgradeChain
        (fun _ => false) 3 "Deep" ≠ RetryExecutor.DGOutcome.outOfFuel ∧
    RetryExecutor.IsTerminalFailure
      (RetryExecutor.downgradeAndRetry RetryExecutor.downgradeChain
        (fun _ => false) 3 "Deep") := by
  refine ⟨(C8_downgrade_chain_terminates "Deep" (fun _ => false) 3 (by decide)).1,
    (C8_downgrade_chain_terminates "Deep" (fun _ => false) 3 (by decide)).2.2 rfl rfl⟩

/-! ## Single-task execution and admission slots
(`SubagentScheduler.execute` lines 80-237 and
`SubagentScheduler.executeSingle` lines 914-1070 of index.js share this
control flow verbatim). -/

namespace Scheduler

/-- The result object returned by `execute`/`executeSingle`; only the
claim-relevant fields. -/
structure SingleResult where
  success : Bool
  errorType : Option String := none
  branchUsed : Option String := none
deriving DecidableEq, Repr

/-- The external effects of one `executeSingle` run, each an oracle
that either yields its value or throws: task classification (step 1),
budget check (step 3), the confirmation gate (step 4), slot
acquisition by `waitForSlot` (step 5; an error is the polling-timeout
throw, raised without holding a slot), `buildTaskConfig` (step 6), the
progress message (step 7), the execution itself (step 8; its value is
the `executionResult.success` flag — the retry executor converts
execution exceptions into failure objects rather than rethrowing),
history insertion (step 11) and the completion message (step 12). -/
structure ExecEnv where
  classifyBranch : Except String String
  budgetAllowed : Except String Bool
  confirmAction : Except String String
  slotWait : Except String Unit
  buildConfig : Except String Unit
  sendProgress : Except String Unit
  execution : Except String Bool
  insertHistory : Except String Unit
  updateComplete : Except String Unit

/-- The control flow of `executeSingle` (index.js lines 914-1070) as it
affects the admission slot.  The returned boolean is whether the
acquired slot is still held when the call finishes; inside the `try`
body an exception carries the slot state at throw time, and the `catch`
of lines 1049-1070 records history and returns the
`EXECUTION_ERROR` result — it contains no `releaseSlot` call, so the
slot state is whatever it was at the throw.  The only `releaseSlot` is
step 10 on the straight-line path, after which the slot is no longer
held. -/
def executeSingle (env : ExecEnv) (forceBranch chatId : Option String)
    (confirmEnabled : Bool) : Except String SingleResult × Bool :=
  let inner : Except (String × Bool) (SingleResult × Bool) := do
    let cls ← Except.mapError (fun m => (m, false)) env.classifyBranch
    let branch := forceBranch.getD cls
    if branch = "Simple" then
      return ({ success := true, branchUsed := some "Simple" }, false)
    let allowed ← Except.mapError (fun m => (m, false)) env.budgetAllowed
    if !allowed then
      return ({ success := false, errorType := some "BUDGET_EXCEEDED" }, false)
    if chatId.isSome && confirmEnabled then
      let act ← Except.mapError (fun m => (m, false)) env.confirmAction
      if act = "cancel" then
        return ({ success := false, errorType := some "USER_CANCELLED" }, false)
      if act = "downgrade" then
        return ({ success := true, branchUsed := some "Simple" }, false)
    let _ ← Except.mapError (fun m => (m, false)) env.slotWait
    -- the slot is held from here on
    let _ ← Except.mapError (fun m => (m, true)) env.buildConfig
    if chatId.isSome then
      let _ ← Except.mapError (fun m => (m, true)) env.sendProgress
    let ok ← Except.mapError (fun m => (m, true)) env.execution
    -- step 10 (line 1010): releaseSlot — the slot is no longer held
    let _ ← Except.mapError (fun m => (m, false)) env.insertHistory
    if chatId.isSome then
      let _ ← Except.mapError (fun m => (m, false)) env.updateComplete
    return ({ success := ok, branchUsed := some branch }, false)
  match inner with
  | .ok r => (.ok r.1, r.2)
  | .error (_, held) =>
      match env.insertHistory with
      | .ok _ => (.ok { success := false, errorType := some "EXECUTION_ERROR" }, held)
      | .error e => (.error e, held)

/-- A run in which `buildTaskConfig` throws after the slot was
acquired: the concrete failing input is a Redis-backed controller and
`options.forceBranch` set to a tier missing from `config.branches`
(the Lua script's `limits[branch] || 1` admits the unknown tier with
limit 1, then `buildTaskConfig` throws a TypeError reading
`branchConfig.cleanup` of `undefined`). -/
def leakEnv : ExecEnv :=
  { classifyBranch := .ok "Standard"
    budgetAllowed := .ok true
    confirmAction := .ok "proceed"
    slotWait := .ok ()
    buildConfig := .error "TypeError: Cannot read properties of undefined (reading 'cleanup')"
    sendProgress := .ok ()
    execution := .ok true
    insertHistory := .ok ()
    updateComplete := .ok () }

end Scheduler

/-- C5: refuted — `releaseSlot` is not reached on every exit path.
When any step between slot acquisition (step 5) and the sole
`releaseSlot` call (step 10) throws — here `buildTaskConfig` with an
unrecognised forced tier — the catch block returns the terminal
`EXECUTION_ERROR` result while the slot is still held: a task that has
reached a terminal outcome keeps its admission slot (no try/finally
protects the release at index.js line 1010 / line 176). -/
theorem C5_terminal_outcome_with_slot_still_held :
    Scheduler.executeSingle Scheduler.leakEnv (some "Bogus") none false =
      (.ok { success := false, errorType := some "EXECUTION_ERROR" }, true) := by
  rfl

/-! ## Agent registry (agent-registry.js) and router (agent-router.js) -/

namespace AgentRegistry

/-- A registry entry (agent-registry.js lines 30-47); only the fields
the discovery, selection and load-update code reads.  `costPerToken`
models `metadata.costPerToken` and `avgExecTime` models
`stats.avgExecutionTime`. -/
structure Agent where
  agentId : String
  name : String
  capabilities : List String
  maxConcurrent : Nat
  currentLoad : Int
  status : String
  costPerToken : Option Rat := none
  avgExecTime : Option Rat := none
deriving DecidableEq, Repr

/-- The registry is its agents in registration (Map-insertion) order. -/
abbrev Registry := List Agent

/-- `AgentRegistry.updateLoad` (agent-registry.js lines 98-112): clamp
the new load at 0, flip to `busy` at or above capacity, and recover
`busy` to `healthy` below it (an unknown id leaves the registry
unchanged, the JS early-returns `false`). -/
def updateLoad (reg : Registry) (agentId : String) (delta : Int) : Registry :=
  reg.map fun a =>
    if a.agentId = agentId then
      let newLoad := max 0 (a.currentLoad + delta)
      { a with
        currentLoad := newLoad
        status :=
          if (a.maxConcurrent : Int) ≤ newLoad then "busy"
          else if a.status = "busy" then "healthy"
          else a.status }
    else a

/-- Load fraction `currentLoad / maxConcurrent` used by the
discovery sort and the load-balance selection. -/
def loadFrac (a : Agent) : Rat := mkRat a.currentLoad a.maxConcurrent

/-- The discovery sort order (agent-registry.js lines 176-185):
healthy agents first, then ascending load fraction; `le a b` iff the JS
comparator returns ≤ 0 on `(a, b)`. -/
def discoverLe (a b : Agent) : Bool :=
  if a.status = "healthy" ∧ b.status ≠ "healthy" then true
  else if b.status = "healthy" ∧ a.status ≠ "healthy" then false
  else loadFrac a ≤ loadFrac b

/-- `AgentRegistry.discover` (agent-registry.js lines 144-189): filter
out excluded, offline, capability-lacking and capacity-lacking agents,
then sort healthy-first / lowest-load-first when `preferHealthy`. -/
def discover (reg : Registry) (capabilities : List String) (minAvailable : Int)
    (excludeIds : List String) (preferHealthy : Bool) : List Agent :=
  let candidates := reg.filter fun a =>
    !(excludeIds.contains a.agentId) &&
    !(a.status == "offline") &&
    (capabilities.isEmpty || capabilities.all fun c => a.capabilities.contains c) &&
    (decide (minAvailable ≤ (a.maxConcurrent : Int) - a.currentLoad))
  if preferHealthy then stableSortBy discoverLe candidates else candidates

end AgentRegistry

namespace AgentRouter

open AgentRegistry

/-- The route object built by `AgentRouter.route` (agent-router.js
lines 84-91) and `fallbackRoute` (lines 224-231).  `isFallback` is
`false` when the JS object carries no such field — only the
default-agent fallback sets it.  `subtask` is the extra field that
`routeSubtasks` (index.js line 784) attaches for later re-routing. -/
structure RouteResult where
  subtaskId : String
  agentId : String
  agentName : String
  strategy : String
  isFallback : Bool := false
  subtask : Option Subtask := none
deriving DecidableEq, Repr

/-- `selectByCapability` (agent-router.js lines 133-150): score each
candidate by the matched fraction of required capabilities, sort
descending (stable), take the head.  With no required capabilities the
JS scores are all `0/0 = NaN` and V8's sort keeps the original order;
`Rat` division by zero gives the same all-equal stable outcome. -/
def selectByCapability (candidates : List Agent) (subtask : Subtask) : Option Agent :=
  let requiredCaps := subtask.requiredCapabilities.getD []
  let scored := candidates.map fun a =>
    (a, mkRat ((requiredCaps.filter fun c => a.capabilities.contains c).length : Int)
        requiredCaps.length)
  let sorted := stableSortBy (fun x y => decide (y.2 ≤ x.2)) scored
  sorted.head?.map Prod.fst

/-- `selectByLoadBalance` (agent-router.js lines 155-162): `reduce`
keeping the strictly lower load fraction, so the first minimum wins
(`none` models the TypeError of `reduce` on an empty array, which
`route` makes unreachable). -/
def selectByLoadBalance (candidates : List Agent) : Option Agent :=
  match candidates with
  | [] => none
  | h :: t => some (t.foldl
      (fun best cur => if loadFrac cur < loadFrac best then cur else best) h)

/-- Declared cost `metadata?.costPerToken || 1` (a falsy 0 also falls
back to 1). -/
def costOf (a : Agent) : Rat :=
  match a.costPerToken with
  | some c => if c = 0 then 1 else c
  | none => 1

/-- `selectByCost` (agent-router.js lines 167-174). -/
def selectByCost (candidates : List Agent) : Option Agent :=
  match candidates with
  | [] => none
  | h :: t => some (t.foldl (fun best cur => if costOf cur < costOf best then cur else best) h)

/-- Historical mean duration `stats?.avgExecutionTime || Infinity`;
`none` is Infinity (also for a falsy recorded 0). -/
def timeOf (a : Agent) : Option Rat :=
  match a.avgExecTime with
  | some t => if t = 0 then none else some t
  | none => none

/-- `selectByPerformance` (agent-router.js lines 179-186). -/
def selectByPerformance (candidates : List Agent) : Option Agent :=
  match candidates with
  | [] => none
  | h :: t => some (t.foldl
      (fun best cur =>
        match timeOf cur, timeOf best with
        | some c, some b => if c < b then cur else best
        | some _, none => cur
        | _, _ => best)
      h)

/-- `selectAgent` (agent-router.js lines 108-127).  `rrIndex` is the
instance's round-robin counter at call time (its post-call increment is
instance state that no claim observes). -/
def selectAgent (candidates : List Agent) (subtask : Subtask) (strategy : String)
    (rrIndex : Nat) : Option Agent :=
  if strategy = "capability_match" then selectByCapability candidates subtask
  else if strategy = "load_balance" then selectByLoadBalance candidates
  else if strategy = "cost_optimize" then selectByCost candidates
  else if strategy = "performance" then selectByPerformance candidates
  else if strategy = "round_robin" then candidates.get? (rrIndex % candidates.length)
  else candidates.head?

/-- The body of `AgentRouter.route` past the fallback branch
(agent-router.js lines 57-102): discover, select, atomically increment
the chosen agent's load, and return the route object — which carries
no `isFallback` field.  This is also the exact behaviour of a `route`
call whose options carry `isFallback: true` (the guard at line 68 is
then false), which is how `fallbackRoute` re-enters `route`. -/
def routeNoFallback (reg : Registry) (subtask : Subtask) (strategy : String)
    (excludeAgents : List String) (rrIndex : Nat) :
    Except String (RouteResult × Registry) :=
  let candidates := discover reg (subtask.requiredCapabilities.getD []) 1
    excludeAgents true
  if candidates.isEmpty then .error "没有可用的 Agent 处理该子任务"
  else
    match selectAgent candidates subtask strategy rrIndex with
    | none => .error "无法选择合适的 Agent"
    | some sel =>
        .ok ({ subtaskId := subtask.id
               agentId := sel.agentId
               agentName := sel.name
               strategy := strategy
               isFallback := false },
             updateLoad reg sel.agentId 1)

/-- The capability relaxation of `fallbackRoute` (agent-router.js lines
204-207): `requiredCapabilities?.slice(0, 1) || ['read']` — an absent
capability list becomes `['read']`; a present (even empty) list is cut
to its first element. -/
def relaxSubtask (subtask : Subtask) : Subtask :=
  { subtask with
    requiredCapabilities :=
      match subtask.requiredCapabilities with
      | some caps => some (caps.take 1)
      | none => some ["read"] }

/-- `AgentRouter.fallbackRoute` (agent-router.js lines 200-236): retry
`route` once with the relaxed capability set, `load_balance` strategy,
an empty exclusion set and `isFallback: true` in the options (which
only disables a second fallback — the successful route object built at
lines 84-91 carries no `isFallback` field); if that also fails, assign
the first registered agent with an explicit `isFallback: true` route,
and fail only when the registry is empty. -/
def fallbackRoute (reg : Registry) (subtask : Subtask) (rrIndex : Nat) :
    Except String (RouteResult × Registry) :=
  match routeNoFallback reg (relaxSubtask subtask) "load_balance" [] rrIndex with
  | .ok r => .ok r
  | .error _ =>
      match reg with
      | defaultAgent :: _ =>
          .ok ({ subtaskId := subtask.id
                 agentId := defaultAgent.agentId
                 agentName := defaultAgent.name
                 strategy := "fallback_default"
                 isFallback := true },
               updateLoad reg defaultAgent.agentId 1)
      | [] => .error "降级路由也失败，没有可用 Agent"

/-- `AgentRouter.route` (agent-router.js lines 48-103) with the
instance configuration (`fallbackEnabled`) and the call options
(`strategy`, `excludeAgents`, `isFallback`) explicit. -/
def route (reg : Registry) (subtask : Subtask) (strategy : String)
    (excludeAgents : List String) (isFallbackOpt : Bool) (fallbackEnabled : Bool)
    (rrIndex : Nat) : Except String (RouteResult × Registry) :=
  let candidates := discover reg (subtask.requiredCapabilities.getD []) 1
    excludeAgents true
  if candidates.isEmpty then
    if fallbackEnabled && !isFallbackOpt then fallbackRoute reg subtask rrIndex
    else .error "没有可用的 Agent 处理该子任务"
  else
    match selectAgent candidates subtask strategy rrIndex with
    | none => .error "无法选择合适的 Agent"
    | some sel =>
        .ok ({ subtaskId := subtask.id
               agentId := sel.agentId
               agentName := sel.name
               strategy := strategy
               isFallback := false },
             updateLoad reg sel.agentId 1)

/-- `AgentRouter.reRoute` (agent-router.js lines 243-259): release the
failed agent's load, then route again with `load_balance`, excluding
it.  The load release is a mutation that persists even when the second
routing throws, so the registry is returned alongside either outcome.
A route object lacking the `subtask` field would make the JS
`route(undefined, …)` throw on the first property access. -/
def reRoute (reg : Registry) (failedRoute : RouteResult) (fallbackEnabled : Bool)
    (rrIndex : Nat) : Except String RouteResult × Registry :=
  let reg' := updateLoad reg failedRoute.agentId (-1)
  match failedRoute.subtask with
  | some st =>
      match route reg' st "load_balance" [failedRoute.agentId] false
          fallbackEnabled rrIndex with
      | .ok (r, reg'') => (.ok r, reg'')
      | .error e => (.error e, reg')
  | none =>
      (.error "TypeError: Cannot read properties of undefined (reading 'requiredCapabilities')",
       reg')

/-- Every route the normal path returns has no fallback flag. -/
theorem routeNoFallback_isFallback_false {reg subtask strategy excludeAgents rrIndex r reg'}
    (h : routeNoFallback reg subtask strategy excludeAgents rrIndex = .ok (r, reg')) :
    r.isFallback = false := by
  unfold routeNoFallback at h
  dsimp only at h
  split at h
  · exact absurd h (by simp)
  · split at h
    · exact absurd h (by simp)
    · simp only [Except.ok.injEq, Prod.mk.injEq] at h
      rw [← h.1]

end AgentRouter

/-- The single-agent registry of the C6 counterexample: one healthy
agent with capability `read` only and a free slot. -/
def c6Agent : AgentRegistry.Agent :=
  { agentId := "agent_a", name := "A", capabilities := ["read"]
    maxConcurrent := 1, currentLoad := 0, status := "healthy" }

/-- The C6 subtask, requiring more capabilities than any agent has. -/
def c6Subtask : Subtask :=
  { id := "s1", requiredCapabilities := some ["read", "write", "analyze"] }

/-- C6: refuted — routing that succeeds only through the
relaxed-capability fallback returns a Route WITHOUT `isFallback: true`.
With one registered agent lacking two of the three required
capabilities, discovery returns no candidates, `fallbackRoute` relaxes
the requirement to `["read"]` and re-routes successfully — and the
returned route carries `isFallback = false` (the JS object built by
`route` has no such field; only the `fallback_default` branch sets
it). -/
theorem C6_relaxed_fallback_route_not_flagged :
    AgentRegistry.discover [c6Agent] ["read", "write", "analyze"] 1 [] true = [] ∧
    AgentRouter.route [c6Agent] c6Subtask "capability_match" [] false true 0 =
      .ok ({ subtaskId := "s1", agentId := "agent_a", agentName := "A"
             strategy := "load_balance", isFallback := false },
           [{ agentId := "agent_a", name := "A", capabilities := ["read"]
              maxConcurrent := 1, currentLoad := 1, status := "busy" }]) := by
  constructor
  · rfl
  · rfl

/-- C6 as amended: when discovery for the original requirement returns
no candidates (so routing can only succeed through the fallback path),
the returned Route is flagged `isFallback: true` exactly when the
relaxed-capability retry fails and the registry's first agent is used
as the default; when the relaxed retry succeeds, its Route is returned
unchanged and carries no fallback flag. -/
theorem C6_fallback_flag_amended (reg : AgentRegistry.Registry) (subtask : Subtask)
    (strategy : String) (excludeAgents : List String) (rrIndex : Nat)
    (hempty : AgentRegistry.discover reg (subtask.requiredCapabilities.getD []) 1
      excludeAgents true = []) :
    (∀ r reg',
      AgentRouter.routeNoFallback reg (AgentRouter.relaxSubtask subtask)
          "load_balance" [] rrIndex = .ok (r, reg') →
        AgentRouter.route reg subtask strategy excludeAgents false true rrIndex =
          .ok (r, reg') ∧ r.isFallback = false) ∧
    (∀ e defaultAgent rest,
      AgentRouter.routeNoFallback reg (AgentRouter.relaxSubtask subtask)
          "load_balance" [] rrIndex = .error e →
      reg = defaultAgent :: rest →
        ∃ r reg',
          AgentRouter.route reg subtask strategy excludeAgents false true rrIndex =
            .ok (r, reg') ∧ r.isFallback = true) := by
  have hroute : AgentRouter.route reg subtask strategy excludeAgents false true rrIndex =
      AgentRouter.fallbackRoute reg subtask rrIndex := by
    unfold AgentRouter.route
    simp [hempty]
  constructor
  · intro r reg' hok
    refine ⟨?_, AgentRouter.routeNoFallback_isFallback_false hok⟩
    rw [hroute]
    unfold AgentRouter.fallbackRoute
    rw [hok]
  · intro e defaultAgent rest herr hreg
    subst hreg
    refine ⟨{ subtaskId := subtask.id, agentId := defaultAgent.agentId
              agentName := defaultAgent.name, strategy := "fallback_default"
              isFallback := true },
            AgentRegistry.updateLoad (defaultAgent :: rest) defaultAgent.agentId 1,
            ?_, rfl⟩
    rw [hroute]
    unfold AgentRouter.fallbackRoute
    rw [herr]

/-- Witness for C6's amended theorem: the default-agent branch flags
the route.  One registered agent that lacks even the most essential
required capability: the relaxed retry also fails and the default
assignment returns `isFallback = true`. -/
theorem C6_fallback_flag_amended_witness :
    ∃ r reg',
      AgentRouter.route
          [{ agentId := "agent_b", name := "B", capabilities := ["write"]
             maxConcurrent := 1, currentLoad := 0, status := "healthy" }]
          c6Subtask "capability_match" [] false true 0 = .ok (r, reg') ∧
        r.isFallback = true := by
  exact (C6_fallback_flag_amended
      [{ agentId := "agent_b", name := "B", capabilities := ["write"]
         maxConcurrent := 1, currentLoad := 0, status := "healthy" }]
      c6Subtask "capability_match" [] 0 rfl).2
    "没有可用的 Agent 处理该子任务"
    { agentId := "agent_b", name := "B", capabilities := ["write"]
      maxConcurrent := 1, currentLoad := 0, status := "healthy" }
    [] rfl rfl

/-! ## DAG execution engine (`SubagentScheduler.routeSubtasks`,
`executeDAG`, `executeMultiAgent`, index.js lines 717-893) -/

namespace Scheduler

/-- The per-subtask outcome built by `executeSubtask` (index.js lines
885-892).  The worker execution endpoint is external, so runs are
parameterised by an oracle producing these (or throwing); note that a
failed execution normally comes back as `success := false` rather than
as a throw — the throw case models exceptions such as the TypeError of
line 871 when the routed agent has been unregistered. -/
structure ExecResult where
  subtaskId : String
  result : Option String
  success : Bool
  agentId : String
  agentName : String
deriving DecidableEq, Repr

/-- The view of an execution result that `aggregateByDAG` reads: the
JS passes the result object itself, of which aggregation touches only
`subtaskId`, `result` and (absent) `metadata`. -/
def ExecResult.toAggItem (r : ExecResult) : ResultAggregator.AggItem :=
  { subtaskId := some r.subtaskId, result := r.result, metadata := none }

/-- `SubagentScheduler.routeSubtasks` (index.js lines 767-799): one
loop iteration per parallel group; each iteration routes (with
`capability_match`) every not-yet-routed subtask whose dependencies are
in the routing-phase `completed` set, stores `{...route, subtask}` for
the successes, silently skips failures, and then marks ALL executable
subtasks — including the ones that failed to route — as completed.
The concurrent `Promise.all` routes touch shared registry load state;
the fold serialises them in list order (the runs evaluated below have
at most one executable subtask per iteration, so the serialisation is
unique). -/
def routeSubtasksAux (dag : DAG) (fallbackEnabled : Bool) (rrIndex : Nat) :
    List (List String) →
    List (String × AgentRouter.RouteResult) × List String × AgentRegistry.Registry →
    List (String × AgentRouter.RouteResult) × List String × AgentRegistry.Registry
  | [], acc => acc
  | _group :: restGroups, (routes, completed, reg) =>
      let executable := dag.subtasks.filter fun st =>
        !(routes.lookup st.id).isSome && st.dependsOn.all fun dep => completed.contains dep
      let routed := executable.foldl
        (fun (acc2 : List (String × AgentRouter.RouteResult) × AgentRegistry.Registry) st =>
          match AgentRouter.route acc2.2 st "capability_match" [] false
              fallbackEnabled rrIndex with
          | .ok (r, reg') => (acc2.1 ++ [(st.id, { r with subtask := some st })], reg')
          | .error _ => acc2)
        (routes, reg)
      routeSubtasksAux dag fallbackEnabled rrIndex restGroups
        (routed.1, completed ++ executable.map Subtask.id, routed.2)

def routeSubtasks (dag : DAG) (reg : AgentRegistry.Registry)
    (fallbackEnabled : Bool) (rrIndex : Nat) :
    List (String × AgentRouter.RouteResult) × AgentRegistry.Registry :=
  let r := routeSubtasksAux dag fallbackEnabled rrIndex dag.parallelGroups ([], [], reg)
  (r.1, r.2.2)

/-- Processing of one executable subtask inside `executeDAG`'s
`Promise.all` (index.js lines 821-853): on a returned result (success
or failure object alike) record it, mark the subtask completed and
decrement the routed agent's load; on a throw, when retry is enabled,
`reRoute` (which releases the old agent's load and may assign a new
agent) and re-execute — a retried success records the result WITHOUT
any load decrement, and a retried failure (or a reRoute throw) leaves
the subtask unrecorded, also without releasing the new route's load. -/
def execDAGOne (exec : AgentRouter.RouteResult → Subtask → Except String ExecResult)
    (retryEnabled fallbackEnabled : Bool) (rrIndex : Nat)
    (routes : List (String × AgentRouter.RouteResult)) (subtasks : List Subtask)
    (acc : List (String × ExecResult) × List String × AgentRegistry.Registry)
    (id : String) :
    List (String × ExecResult) × List String × AgentRegistry.Registry :=
  let (results, completed, reg) := acc
  match routes.lookup id, subtasks.find? (fun s => s.id = id) with
  | some route, some subtask =>
      (match exec route subtask with
       | .ok res =>
           (results ++ [(id, res)], completed ++ [id],
            AgentRegistry.updateLoad reg route.agentId (-1))
       | .error _ =>
           if retryEnabled then
             match AgentRouter.reRoute reg route fallbackEnabled rrIndex with
             | (.ok newRoute, reg2) =>
                 (match exec newRoute subtask with
                  | .ok res => (results ++ [(id, res)], completed ++ [id], reg2)
                  | .error _ => (results, completed, reg2))
             | (.error _, reg2) => (results, completed, reg2)
           else (results, completed, reg))
  | _, _ => acc

/-- `SubagentScheduler.executeDAG` (index.js lines 804-860): iterate
the parallel groups; in each, filter the group to the subtasks that
have a route and whose dependencies are all completed (evaluated
against the `completed` set as the group starts), then run them.  The
concurrent per-subtask effects are serialised in group order (the runs
evaluated below have at most one executable subtask per group). -/
def executeDAG (dag : DAG) (routes : List (String × AgentRouter.RouteResult))
    (reg : AgentRegistry.Registry)
    (exec : AgentRouter.RouteResult → Subtask → Except String ExecResult)
    (retryEnabled fallbackEnabled : Bool) (rrIndex : Nat) :
    List (String × ExecResult) × List String × AgentRegistry.Registry :=
  dag.parallelGroups.foldl
    (fun acc group =>
      let completed := acc.2.1
      let executable := group.filter fun id =>
        match routes.lookup id with
        | none => false
        | some _ =>
            match dag.subtasks.find? (fun s => s.id = id) with
            | none => false
            | some st => st.dependsOn.all fun dep => completed.contains dep
      executable.foldl
        (execDAGOne exec retryEnabled fallbackEnabled rrIndex routes dag.subtasks)
        acc)
    ([], [], reg)

/-- The task-level result object of `executeMultiAgent` (index.js
lines 745-756); its `success` field is the literal `true`. -/
structure MultiAgentResult where
  success : Bool
  result : Option String
  subtaskCount : Nat
  parallelGroupCount : Nat
deriving DecidableEq, Repr

/-- `SubagentScheduler.executeMultiAgent` (index.js lines 717-762):
decompose, route, execute the DAG, aggregate hierarchically, and
report `success: true` with the aggregated payload; a thrown error
(only aggregation can throw in this pipeline) is re-thrown.  The
decomposition inputs and the execution endpoint are the oracles. -/
def executeMultiAgent (c : Complexity) (taskHasFileWord : Bool)
    (fileCountMatch : Option Nat) (reg : AgentRegistry.Registry)
    (exec : AgentRouter.RouteResult → Subtask → Except String ExecResult)
    (retryEnabled fallbackEnabled : Bool) (rrIndex : Nat) :
    Except String MultiAgentResult :=
  let dag := decompose c taskHasFileWord fileCountMatch
  let routed := routeSubtasks dag reg fallbackEnabled rrIndex
  let run := executeDAG dag routed.1 routed.2 exec retryEnabled fallbackEnabled rrIndex
  match ResultAggregator.aggregateByDAG (mkRat 4 5) dag.parallelGroups
      (fun id => (run.1.lookup id).map ExecResult.toAggItem) with
  | .ok agg =>
      .ok { success := true
            result := agg.result
            subtaskCount := dag.subtasks.length
            parallelGroupCount := dag.parallelGroups.length }
  | .error e => .error e

end Scheduler

/-- Complexity verdict steering `decompose` to the generic
prepare → execute → verify chain. -/
def c2Complexity : Complexity :=
  { hasMultipleSteps := false, hasMultipleTargets := false
    hasDeepAnalysis := false, hasDependencies := false, shouldDecompose := true }

/-- A single registered agent capable of every generic-template
capability. -/
def c2Agent : AgentRegistry.Agent :=
  { agentId := "agent_a", name := "A"
    capabilities := ["read", "plan", "write", "execute", "verify"]
    maxConcurrent := 10, currentLoad := 0, status := "healthy" }

/-- An execution endpoint that throws for the `execute` subtask (on
the original route and on the re-route alike) and succeeds everywhere
else with payload `P-<id>`. -/
def c2Exec : AgentRouter.RouteResult → Subtask → Except String Scheduler.ExecResult :=
  fun route st =>
    if st.id = "execute" then .error "命令执行失败"
    else .ok { subtaskId := st.id, result := some ("P-" ++ st.id), success := true
               agentId := route.agentId, agentName := route.agentName }

/-- C2: refuted — a DAG with a subtask that stays unresolved after its
retry is exhausted is NOT reported failed, and the final result IS a
partial aggregation.  In the prepare → execute → verify chain, the
`execute` subtask throws on both attempts, so it never enters the
results map and `verify` never becomes executable; yet
`executeMultiAgent` returns `success: true` with the payload built from
`prepare` alone (`aggregateByDAG` silently drops the two unresolved
subtasks). -/
theorem C2_partial_aggregation_counterexample :
    Scheduler.executeMultiAgent c2Complexity false none [c2Agent] c2Exec true true 0 =
      .ok { success := true, result := some "P-prepare"
            subtaskCount := 3, parallelGroupCount := 3 } ∧
    ((Scheduler.executeDAG (decompose c2Complexity false none)
        (Scheduler.routeSubtasks (decompose c2Complexity false none) [c2Agent] true 0).1
        (Scheduler.routeSubtasks (decompose c2Complexity false none) [c2Agent] true 0).2
        c2Exec true true 0).1.lookup "execute" = none ∧
      (Scheduler.executeDAG (decompose c2Complexity false none)
        (Scheduler.routeSubtasks (decompose c2Complexity false none) [c2Agent] true 0).1
        (Scheduler.routeSubtasks (decompose c2Complexity false none) [c2Agent] true 0).2
        c2Exec true true 0).1.lookup "verify" = none) := by
  exact ⟨rfl, rfl, rfl⟩

/-- Two interchangeable workers for the C3 runs. -/
def c3AgentA : AgentRegistry.Agent :=
  { agentId := "agent_a", name := "A", capabilities := ["read", "write"]
    maxConcurrent := 2, currentLoad := 0, status := "healthy" }

def c3AgentB : AgentRegistry.Agent :=
  { agentId := "agent_b", name := "B", capabilities := ["read", "write"]
    maxConcurrent := 2, currentLoad := 0, status := "healthy" }

/-- The trivial single-subtask DAG (`shouldDecompose` false). -/
def c3Dag : DAG :=
  decompose { hasMultipleSteps := false, hasMultipleTargets := false
              hasDeepAnalysis := false, hasDependencies := false
              shouldDecompose := false } false none

/-- Routing phase of the C3 runs: `subtask_1` is routed to agent A
(first by capability score, stable order), raising A's load to 1. -/
def c3Routed := Scheduler.routeSubtasks c3Dag [c3AgentA, c3AgentB] true 0

/-- An execution endpoint that throws on every attempt. -/
def c3ExecFailAll : AgentRouter.RouteResult → Subtask → Except String Scheduler.ExecResult :=
  fun _ _ => .error "执行失败"

/-- An execution endpoint that throws on the original route (strategy
`capability_match`) and succeeds on the re-routed attempt (strategy
`load_balance`). -/
def c3ExecFailFirst : AgentRouter.RouteResult → Subtask → Except String Scheduler.ExecResult :=
  fun route st =>
    if route.strategy = "capability_match" then .error "执行失败"
    else .ok { subtaskId := st.id, result := some "R", success := true
               agentId := route.agentId, agentName := route.agentName }

/-- C3: refuted — the worker-load invariant is violated by both
post-retry paths of `executeDAG`.  Run 1 (both attempts throw): the
subtask is terminally abandoned — it is in no results map and no
further group — yet agent B, which held the re-route, ends with
`currentLoad = 1` while the number of routes assigned to it with a
non-terminal subtask is 0 (the load decrement of index.js line 833
exists only on the first-attempt success path).  Run 2 (the re-routed
attempt succeeds): the subtask completes, its result is recorded, and
agent B still ends with `currentLoad = 1` — the retried-success path
(lines 842-846) never decrements the new agent's load either. -/
theorem C3_currentLoad_not_decremented_after_retry :
    Scheduler.executeDAG c3Dag c3Routed.1 c3Routed.2 c3ExecFailAll true true 0 =
      ([], [],
       [{ agentId := "agent_a", name := "A", capabilities := ["read", "write"]
          maxConcurrent := 2, currentLoad := 0, status := "healthy" },
        { agentId := "agent_b", name := "B", capabilities := ["read", "write"]
          maxConcurrent := 2, currentLoad := 1, status := "healthy" }]) ∧
    Scheduler.executeDAG c3Dag c3Routed.1 c3Routed.2 c3ExecFailFirst true true 0 =
      ([("subtask_1",
         { subtaskId := "subtask_1", result := some "R", success := true
           agentId := "agent_b", agentName := "B" })], ["subtask_1"],
       [{ agentId := "agent_a", name := "A", capabilities := ["read", "write"]
          maxConcurrent := 2, currentLoad := 0, status := "healthy" },
        { agentId := "agent_b", name := "B", capabilities := ["read", "write"]
          maxConcurrent := 2, currentLoad := 1, status := "healthy" }]) := by
  exact ⟨by decide, by decide⟩

/-! ### C2, amended: best-effort aggregation over the completed subset -/

namespace ResultAggregator

theorem mem_of_mem_dedupAux {x : AggItem} :
    ∀ {seen : List (Option String)} {l : List AggItem},
      x ∈ dedupAux seen l → x ∈ l := by
  intro seen l
  induction l generalizing seen with
  | nil => simp [dedupAux]
  | cons r rest ih =>
      intro hx
      unfold dedupAux at hx
      by_cases h : r.result ∈ seen
      · rw [if_pos h] at hx
        exact List.mem_cons_of_mem _ (ih hx)
      · rw [if_neg h] at hx
        rcases List.mem_cons.mp hx with h1 | h1
        · rw [h1]; exact List.mem_cons_self _ _
        · exact List.mem_cons_of_mem _ (ih h1)

theorem mem_deduplicate {x : AggItem} {l : List AggItem}
    (h : x ∈ deduplicate l) : x ∈ l :=
  mem_of_mem_dedupAux h

theorem pairsAfter_mem {l : List AggItem} {p : AggItem × AggItem}
    (h : p ∈ pairsAfter l) : p.1 ∈ l ∧ p.2 ∈ l := by
  induction l with
  | nil => simp [pairsAfter] at h
  | cons x xs ih =>
      simp only [pairsAfter, List.mem_append, List.mem_map] at h
      rcases h with ⟨y, hy, rfl⟩ | h
      · exact ⟨List.mem_cons_self _ _, List.mem_cons_of_mem _ hy⟩
      · exact ⟨List.mem_cons_of_mem _ (ih h).1, List.mem_cons_of_mem _ (ih h).2⟩

theorem conflictFold_ok (th : Rat) :
    ∀ (ps : List (AggItem × AggItem)),
      (∀ p ∈ ps, p.1.result ≠ none ∧ p.2.result ≠ none) →
      ∀ acc, ∃ v, ps.foldlM
        (fun acc p => do
          let sim ← calculateSimilarity p.1.result p.2.result
          pure (if mkRat 3 10 < sim ∧ sim < th then
            acc ++ [(p.1.subtaskId, p.2.subtaskId, sim)] else acc))
        acc = .ok v := by
  intro ps
  induction ps with
  | nil => exact fun _ acc => ⟨acc, rfl⟩
  | cons p ps ih =>
      intro hp acc
      obtain ⟨h1, h2⟩ := hp p (List.mem_cons_self _ _)
      obtain ⟨s1, hs1⟩ := Option.ne_none_iff_exists'.mp h1
      obtain ⟨s2, hs2⟩ := Option.ne_none_iff_exists'.mp h2
      obtain ⟨v, hv⟩ := ih (fun q hq => hp q (List.mem_cons_of_mem _ hq))
        (if mkRat 3 10 <
            mkRat (((jsSplitWs s1.toLower).toFinset ∩ (jsSplitWs s2.toLower).toFinset).card : Int)
              ((jsSplitWs s1.toLower).toFinset ∪ (jsSplitWs s2.toLower).toFinset).card ∧
            mkRat (((jsSplitWs s1.toLower).toFinset ∩ (jsSplitWs s2.toLower).toFinset).card : Int)
              ((jsSplitWs s1.toLower).toFinset ∪ (jsSplitWs s2.toLower).toFinset).card < th
          then acc ++ [(p.1.subtaskId, p.2.subtaskId,
            mkRat (((jsSplitWs s1.toLower).toFinset ∩ (jsSplitWs s2.toLower).toFinset).card : Int)
              ((jsSplitWs s1.toLower).toFinset ∪ (jsSplitWs s2.toLower).toFinset).card)]
          else acc)
      refine ⟨v, ?_⟩
      rw [List.foldlM_cons, hs1, hs2]
      exact hv

theorem detectConflicts_ok {uniq : List AggItem} {th : Rat}
    (h : ∀ x ∈ uniq, x.result ≠ none) :
    ∃ v, detectConflicts uniq th = .ok v := by
  unfold detectConflicts
  exact conflictFold_ok th (pairsAfter uniq)
    (fun p hp => ⟨h _ (pairsAfter_mem hp).1, h _ (pairsAfter_mem hp).2⟩) []

theorem aggregate_smart_merge_ok (th : Rat) (pr : String → Option Rat) (ot : String)
    (rs : List AggItem) (hne : rs ≠ [])
    (hres : ∀ x ∈ rs, x.result ≠ none) :
    ∃ out, aggregate th (some rs) "smart_merge" pr ot = .ok out ∧
      out.success = true := by
  match rs, hne with
  | [r], _ => exact ⟨_, rfl, rfl⟩
  | r1 :: r2 :: rest, _ =>
      have hded : ∀ x ∈ deduplicate (r1 :: r2 :: rest), x.result ≠ none :=
        fun x hx => hres x (mem_deduplicate hx)
      obtain ⟨v, hv⟩ := @detectConflicts_ok (deduplicate (r1 :: r2 :: rest)) th hded
      have hred : aggregate th (some (r1 :: r2 :: rest)) "smart_merge" pr ot =
          aggregateBySmartMerge th (r1 :: r2 :: rest) := rfl
      have hmain : aggregateBySmartMerge th (r1 :: r2 :: rest) = .ok
          { success := true
            result := some (mergeTexts (resolveConflicts (deduplicate (r1 :: r2 :: rest))))
            source := some "smart_merge"
            count := some (r1 :: r2 :: rest).length
            uniqueCount := some (deduplicate (r1 :: r2 :: rest)).length
            conflictCount := some v.length } := by
        unfold aggregateBySmartMerge
        dsimp only
        rw [hv]
        rfl
      exact ⟨_, hred.trans hmain, rfl⟩

theorem aggregate_concat_ok (th : Rat) (pr : String → Option Rat) (ot : String)
    (rs : List AggItem) (hne : rs ≠ []) :
    ∃ out, aggregate th (some rs) "concat" pr ot = .ok out ∧
      out.success = true := by
  match rs, hne with
  | [r], _ => exact ⟨_, rfl, rfl⟩
  | r1 :: r2 :: rest, _ => exact ⟨_, rfl, rfl⟩

theorem dagFold_ok (th : Rat) (results : String → Option AggItem)
    (hp : ∀ id r, results id = some r → r.result ≠ none) :
    ∀ (groups : List (List String)) (acc : List AggOutput),
      ∃ v, groups.foldlM (dagGroupStep th results) acc = .ok v ∧
        acc.length ≤ v.length := by
  intro groups
  induction groups with
  | nil => exact fun acc => ⟨acc, rfl, le_refl _⟩
  | cons g rest ih =>
      intro acc
      by_cases hg : (g.filterMap results).length > 0
      · have hne : g.filterMap results ≠ [] := by
          intro hemp; rw [hemp] at hg; simp at hg
        have hres : ∀ x ∈ g.filterMap results, x.result ≠ none := by
          intro x hx
          obtain ⟨id, _, hsome⟩ := List.mem_filterMap.mp hx
          exact hp id x hsome
        obtain ⟨out, hout, _⟩ := aggregate_smart_merge_ok th (fun _ => none) ""
          _ hne hres
        have hstep : dagGroupStep th results acc g = .ok (acc ++ [out]) := by
          unfold dagGroupStep
          dsimp only
          rw [if_pos hg]
          show (aggregate th (some (g.filterMap results)) "smart_merge"
            (fun _ => none) "" >>= _) = _
          rw [hout]
          rfl
        obtain ⟨v, hv, hlen⟩ := ih (acc ++ [out])
        refine ⟨v, ?_, ?_⟩
        · show (dagGroupStep th results acc g >>= _) = .ok v
          rw [hstep]
          exact hv
        · simp only [List.length_append, List.length_cons, List.length_nil] at hlen
          omega
      · have hstep : dagGroupStep th results acc g = .ok acc := by
          unfold dagGroupStep
          dsimp only
          rw [if_neg hg]
          rfl
        obtain ⟨v, hv, hlen⟩ := ih acc
        refine ⟨v, ?_, hlen⟩
        show (dagGroupStep th results acc g >>= _) = .ok v
        rw [hstep]
        exact hv

theorem dagFold_nonempty (th : Rat) (results : String → Option AggItem)
    (hp : ∀ id r, results id = some r → r.result ≠ none) :
    ∀ (groups : List (List String)) (acc : List AggOutput),
      (∃ g ∈ groups, g.filterMap results ≠ []) →
      ∃ v, groups.foldlM (dagGroupStep th results) acc = .ok v ∧ v ≠ [] := by
  intro groups
  induction groups with
  | nil => rintro acc ⟨g, hg, _⟩; simp at hg
  | cons g rest ih =>
      rintro acc ⟨gw, hgw, hgwne⟩
      by_cases hg : (g.filterMap results).length > 0
      · have hne : g.filterMap results ≠ [] := by
          intro hemp; rw [hemp] at hg; simp at hg
        have hres : ∀ x ∈ g.filterMap results, x.result ≠ none := by
          intro x hx
          obtain ⟨id, _, hsome⟩ := List.mem_filterMap.mp hx
          exact hp id x hsome
        obtain ⟨out, hout, _⟩ := aggregate_smart_merge_ok th (fun _ => none) ""
          _ hne hres
        have hstep : dagGroupStep th results acc g = .ok (acc ++ [out]) := by
          unfold dagGroupStep
          dsimp only
          rw [if_pos hg]
          show (aggregate th (some (g.filterMap results)) "smart_merge"
            (fun _ => none) "" >>= _) = _
          rw [hout]
          rfl
        obtain ⟨v, hv, hlen⟩ := dagFold_ok th results hp rest (acc ++ [out])
        refine ⟨v, ?_, ?_⟩
        · show (dagGroupStep th results acc g >>= _) = .ok v
          rw [hstep]
          exact hv
        · intro hvnil
          rw [hvnil] at hlen
          simp at hlen
      · have hstep : dagGroupStep th results acc g = .ok acc := by
          unfold dagGroupStep
          dsimp only
          rw [if_neg hg]
          rfl
        have hgne : g.filterMap results = [] := by
          cases hfm : g.filterMap results with
          | nil => rfl
          | cons a l => exact absurd (by rw [hfm]; simp) hg
        have hgwrest : gw ∈ rest := by
          rcases List.mem_cons.mp hgw with heq | h
          · exact absurd
              (show List.filterMap results gw = [] by rw [heq]; exact hgne) hgwne
          · exact h
        obtain ⟨v, hv, hvne⟩ := ih acc ⟨gw, hgwrest, hgwne⟩
        refine ⟨v, ?_, hvne⟩
        show (dagGroupStep th results acc g >>= _) = .ok v
        rw [hstep]
        exact hv

end ResultAggregator

/-- C2 as amended: aggregation of a DAG run is best-effort over the
subset of subtasks that produced a result.  Whenever at least one
subtask of some parallel group has a recorded result (with a string
payload, as `executeSubtask` produces), `aggregateByDAG` succeeds and
reports `success = true` no matter how many subtasks remain unresolved
— the unresolved ones are silently dropped rather than failing the
DAG, and `executeMultiAgent` then reports the whole DAG successful (the
counterexample exhibits this end to end). -/
theorem C2_best_effort_partial_aggregation (threshold : Rat)
    (groups : List (List String)) (results : String → Option ResultAggregator.AggItem)
    (hp : ∀ id r, results id = some r → r.result ≠ none)
    (hw : ∃ g ∈ groups, ∃ id ∈ g, ∃ r, results id = some r) :
    ∃ out, ResultAggregator.aggregateByDAG threshold groups results = .ok out ∧
      out.success = true := by
  have hw' : ∃ g ∈ groups, g.filterMap results ≠ [] := by
    obtain ⟨g, hg, id, hid, r, hr⟩ := hw
    refine ⟨g, hg, fun hemp => ?_⟩
    have : r ∈ g.filterMap results := List.mem_filterMap.mpr ⟨id, hid, hr⟩
    rw [hemp] at this
    simp at this
  obtain ⟨v, hv, hvne⟩ :=
    ResultAggregator.dagFold_nonempty threshold results hp groups [] hw'
  have hmapne : v.map (fun r => ({ result := r.result } : ResultAggregator.AggItem)) ≠ [] := by
    intro h
    exact hvne (List.map_eq_nil_iff.mp h)
  obtain ⟨out, hout, hsucc⟩ :=
    ResultAggregator.aggregate_concat_ok threshold (fun _ => none) "" _ hmapne
  refine ⟨out, ?_, hsucc⟩
  unfold ResultAggregator.aggregateByDAG
  show (List.foldlM _ _ _ >>= _) = .ok out
  rw [hv]
  exact hout

/-- Witness for C2's amended theorem: two singleton groups, a result
recorded only for the first. -/
theorem C2_best_effort_partial_aggregation_witness :
    ∃ out, ResultAggregator.aggregateByDAG (mkRat 4 5) [["a"], ["b"]]
        (fun id => if id = "a" then
          some { result := some "x" } else none) = .ok out ∧
      out.success = true := by
  refine C2_best_effort_partial_aggregation (mkRat 4 5) [["a"], ["b"]]
    (fun id => if id = "a" then some { result := some "x" } else none)
    ?_ ⟨["a"], by simp, "a", by simp, { result := some "x" }, by simp⟩
  intro id r h
  dsimp only at h
  split at h
  · cases h
    simp
  · cases h

end OpenClaw
